import Mathlib

/-!
Verification of SNLib (src/SNLib-v1.js): a shallow embedding of the
readiness gate (`runAfterReady` / `waitForSquarespace` / `executeCallbacks`),
the rate limiters (`throttle`, `debounce`), the one-shot event registry
(`emitCustomEvent`), the element-wait observer (`waitForElement`), and the
page-fetch wrappers (`fetchPage`, `fetchCurrentPage`), together with
theorems settling the specification claims.
-/

namespace SNLib

/-! ## Readiness gate (runAfterReady / waitForSquarespace / executeCallbacks)

A deferred callback is modelled as a tree: running `Cb.node i subs` logs the
id `i` and then calls `runAfterReady` on each callback in `subs` (this models
re-entrant registration from inside a running callback).  The gate state
carries the `isReady` flag, the `_waitingForSquarespace` flag, the
`_readyCallbacks` queue, an execution log, and instrumentation counters for
the number of live interval timers and the number of `executeCallbacks`
drains. -/

inductive Cb : Type where
  | node : Nat → List Cb → Cb

structure GateState where
  isReady : Bool
  waiting : Bool
  queue : List Cb
  log : List Nat
  timers : Nat
  drains : Nat

mutual

/-- Invoke a callback body: record its id, then perform each nested
`runAfterReady` call (mirrors `SNLib.runAfterReady`: run immediately when
ready, enqueue otherwise). -/
def runCb : GateState → Cb → GateState
  | s, .node i subs => runList { s with log := s.log ++ [i] } subs

def runList : GateState → List Cb → GateState
  | s, [] => s
  | s, cb :: rest =>
      runList (if s.isReady then runCb s cb
               else { s with queue := s.queue ++ [cb] }) rest

end

/-- `SNLib.runAfterReady(script)`: run immediately when ready, else queue. -/
def runAfterReady (s : GateState) (script : Cb) : GateState :=
  if s.isReady then runCb s script
  else { s with queue := s.queue ++ [script] }

/-- The `while (this._readyCallbacks.length > 0) { cb = shift(); cb(); }`
loop, with explicit fuel (the fuel is always taken to be the current queue
length, which suffices because no callback enqueues while `isReady`). -/
def drainLoop : Nat → GateState → GateState
  | 0, s => s
  | fuel + 1, s =>
      match s.queue with
      | [] => s
      | cb :: rest => drainLoop fuel (runCb { s with queue := rest } cb)

/-- The `executeCallbacks` closure inside `waitForSquarespace`: set
`isReady = true`, then drain the queue.  The `drains` counter instruments
how many times this drain ran. -/
def executeCallbacks (s : GateState) : GateState :=
  let s' : GateState := { s with isReady := true, drains := s.drains + 1 }
  drainLoop s'.queue.length s'

/-- `SNLib.waitForSquarespace()` (the v1 queued variant), with the external
readiness predicate (`window.Squarespace && window.Squarespace.afterBodyLoad`)
passed in as the boolean `sig`.  When not ready and not yet waiting it either
takes the fast path (`executeCallbacks` immediately) or schedules one
interval timer. -/
def waitForSquarespace (sig : Bool) (s : GateState) : GateState :=
  if s.isReady then drainLoop s.queue.length s
  else if s.waiting then s
  else
    let s' : GateState := { s with waiting := true }
    if sig then executeCallbacks s'
    else { s' with timers := s'.timers + 1 }

/-- One firing of the polling interval callback: only possible while a timer
is live; when the predicate is true it clears the interval and runs
`executeCallbacks`. -/
def intervalTick (sig : Bool) (s : GateState) : GateState :=
  if s.timers = 0 then s
  else if sig then executeCallbacks { s with timers := s.timers - 1 }
  else s

/-- External events driving the gate: a `waitForSquarespace` call, a timer
tick, or a `runAfterReady` registration, each observing the current value of
the readiness predicate where relevant. -/
inductive GateEvent : Type where
  | call : Bool → GateEvent
  | tick : Bool → GateEvent
  | defer : Cb → GateEvent

def gateStep (s : GateState) : GateEvent → GateState
  | .call sig => waitForSquarespace sig s
  | .tick sig => intervalTick sig s
  | .defer cb => runAfterReady s cb

/-- The module-initialization state: not ready, not waiting, empty queue. -/
def initGate : GateState :=
  { isReady := false, waiting := false, queue := [], log := [],
    timers := 0, drains := 0 }

mutual

/-- The sequence of callback ids executed when a callback (resp. a list of
callbacks) runs to completion in the ready state. -/
def traceCb : Cb → List Nat
  | .node i subs => i :: traceList subs

def traceList : List Cb → List Nat
  | [] => []
  | cb :: rest => traceCb cb ++ traceList rest

end

/-! ## Rate limiters (throttle / debounce) -/

/-- One call of the wrapper returned by `SNLib.throttle(func, limit)`:
given the stored `lastCall` timestamp and the current clock `now`, returns
whether `func` ran and the new `lastCall`.  Times are integers (JS
`Date.now()` milliseconds). -/
def throttleStep (limit lastCall now : Int) : Bool × Int :=
  if limit ≤ now - lastCall then (true, now) else (false, lastCall)

/-- Run a throttled wrapper over a list of call instants, returning the
instants at which `func` actually executed.  The closure initializes
`lastCall = 0`. -/
def throttleRun (limit : Int) : Int → List Int → List Int
  | _, [] => []
  | lastCall, t :: rest =>
      let r := throttleStep limit lastCall t
      if r.1 then t :: throttleRun limit r.2 rest
      else throttleRun limit r.2 rest

/-- State of the wrapper returned by `SNLib.debounce(func, delay)`:
`pending` holds the single outstanding timer (its fire instant and the
captured arguments/context of the call that scheduled it), `fired` logs the
executions of `func` as (instant, arguments) pairs. -/
structure DebState (α : Type) where
  pending : Option (Int × α)
  fired : List (Int × α)
deriving DecidableEq

/-- Deliver the pending timer if its deadline has passed by instant `now`. -/
def debFlush {α : Type} (s : DebState α) (now : Int) : DebState α :=
  match s.pending with
  | some (ft, a) =>
      if ft ≤ now then { pending := none, fired := s.fired ++ [(ft, a)] }
      else s
  | none => s

/-- One call of the debounced wrapper at instant `t` with arguments `a`:
any timer already due has fired beforehand; otherwise the pending timer is
cancelled (`clearTimeout`) and a fresh one is scheduled `delay` later
(`setTimeout`). -/
def debCall {α : Type} (delay : Int) (s : DebState α) (t : Int) (a : α) :
    DebState α :=
  let s' := debFlush s t
  { s' with pending := some (t + delay, a) }

/-- Let all remaining time pass: the pending timer, if any, fires. -/
def debFinish {α : Type} (s : DebState α) : DebState α :=
  match s.pending with
  | some (ft, a) => { pending := none, fired := s.fired ++ [(ft, a)] }
  | none => s

/-- Run a debounced wrapper over a list of (instant, arguments) calls and
then let time run out. -/
def debRun {α : Type} (delay : Int) (calls : List (Int × α)) : DebState α :=
  debFinish (calls.foldl (fun s p => debCall delay s p.1 p.2)
    { pending := none, fired := [] })

/-- Every call in the list arrives strictly less than `delay` after the
previous one. -/
def closeCalls {α : Type} (delay : Int) : List (Int × α) → Bool
  | (t1, _) :: (t2, a2) :: rest =>
      decide (t2 < t1 + delay) && closeCalls delay ((t2, a2) :: rest)
  | _ => true

/-! ## One-shot event registry (emitCustomEvent) -/

/-- The externally observable effects of `emitCustomEvent`, in order:
a `dispatchEvent` on the document, the `emittedEvents.set` marking, the
`console.warn` duplicate message, and the `next()` continuation. -/
inductive EmitAction (α : Type) : Type where
  | dispatch : String → α → EmitAction α
  | mark : String → EmitAction α
  | warn : String → EmitAction α
  | next : String → EmitAction α
deriving DecidableEq

/-- Registry state: the key set of the `emittedEvents` map plus the ordered
log of observable actions. -/
structure EmitState (α : Type) where
  emitted : List String
  actions : List (EmitAction α)
deriving DecidableEq

/-- `SNLib.emitCustomEvent(eventName, detail, {flag, next})`.  `hasNext`
models `typeof next === 'function'`.  When `flag` is set and the name was
already emitted, only a warning is produced; otherwise the event is
dispatched, the name marked emitted (unconditionally), and the continuation
run synchronously after the dispatch. -/
def emitCustomEvent {α : Type} (s : EmitState α) (eventName : String)
    (detail : α) (flag : Bool) (hasNext : Bool) : EmitState α :=
  if flag && s.emitted.contains eventName then
    { s with actions := s.actions ++ [.warn eventName] }
  else
    { emitted :=
        if s.emitted.contains eventName then s.emitted
        else s.emitted ++ [eventName],
      actions := s.actions ++ [.dispatch eventName detail, .mark eventName]
        ++ (if hasNext then [.next eventName] else []) }

/-- A fresh registry: `emittedEvents = new Map()`. -/
def initEmit (α : Type) : EmitState α := { emitted := [], actions := [] }

/-! ## Element wait (waitForElement)

The document is abstract: `q` is `document.querySelector(selector)` read
against a document snapshot, and a mutation batch delivers the snapshot
current at observation time. -/

/-- Observer state for one `waitForElement` call: whether the
`MutationObserver` is still connected, and the log of `callback`
invocations. -/
structure WaitState (ε : Type) : Type where
  observing : Bool
  calls : List ε
deriving DecidableEq

/-- `SNLib.waitForElement(selector, callback)` at call time: if the element
already exists the callback runs synchronously and no observer is created;
otherwise a subtree observer is connected. -/
def waitForElement {δ ε : Type} (q : δ → Option ε) (d : δ) : WaitState ε :=
  match q d with
  | some e => { observing := false, calls := [e] }
  | none => { observing := true, calls := [] }

/-- One mutation batch delivered against document snapshot `d`: a
disconnected observer receives nothing; a connected one re-queries the
selector and, on first match, invokes the callback and disconnects. -/
def mutationBatch {δ ε : Type} (q : δ → Option ε) (s : WaitState ε) (d : δ) :
    WaitState ε :=
  if s.observing then
    match q d with
    | some e => { observing := false, calls := s.calls ++ [e] }
    | none => s
  else s

/-! ## Mode watcher flag derivation -/

/-- Modelled from the spec: the mode-watcher's recomputation step
(`deriveFlags`) is described in the spec (§4.4.3, §8) but the mode-watcher
code itself is not present in src/.  It derives two booleans from the
watched root element's class list: "mode-A active" iff the marker class
`sqs-edit-mode` is present, and "active-edit sub-state" iff mode-A is
active and the sub-state marker `sqs-edit-mode-active` is also present. -/
def deriveFlags (classes : List String) : Bool × Bool :=
  let flagA := classes.contains "sqs-edit-mode"
  (flagA, flagA && classes.contains "sqs-edit-mode-active")

/-! ## Page fetch (fetchPage / fetchCurrentPage)

JavaScript values returned by `response.json()` (and passed as the `key`
argument) are modelled by `JsVal`; the network collaborator is a function
from URL to an optional `Response` (`none` models a rejected `fetch`). -/

inductive JsVal : Type where
  | undefined : JsVal
  | jsNull : JsVal
  | bool : Bool → JsVal
  | num : Int → JsVal
  | str : String → JsVal
  | arr : List JsVal → JsVal
  | obj : List (String × JsVal) → JsVal

/-- JavaScript truthiness of a value. -/
def truthy : JsVal → Bool
  | .undefined => false
  | .jsNull => false
  | .bool b => b
  | .num n => n != 0
  | .str s => s != ""
  | .arr _ => true
  | .obj _ => true

mutual

/-- JavaScript string coercion, as used by property access `data[key]`
(array elements are joined with commas). -/
def jsToStr : JsVal → String
  | .undefined => "undefined"
  | .jsNull => "null"
  | .bool true => "true"
  | .bool false => "false"
  | .num n => toString n
  | .str s => s
  | .arr l => jsToStrList l
  | .obj _ => "[object Object]"

def jsToStrList : List JsVal → String
  | [] => ""
  | [v] => jsToStr v
  | v :: rest => jsToStr v ++ "," ++ jsToStrList rest

end

/-- Property lookup on an object (undefined when absent or not an object). -/
def getProp : JsVal → String → JsVal
  | .obj fields, k =>
      match fields.lookup k with
      | some v => v
      | none => .undefined
  | _, _ => .undefined

/-- `data[key]` for an arbitrary JS key value. -/
def getIndex (data key : JsVal) : JsVal := getProp data (jsToStr key)

/-- The network collaborator's reply: HTTP success flag, status code, and
the body as parsed JSON (`none` models a `response.json()` rejection). -/
structure Response where
  ok : Bool
  status : Int
  body : Option JsVal

/-- Observable outcome of a `fetchPage` call: the returned value, the list
of URLs requested, and the number of `console.error` reports. -/
structure FetchOut where
  result : JsVal
  requested : List String
  errors : Nat

/-- `SNLib.fetchPage(path, format, key)`: builds `path?format=format`,
fetches it, throws on a non-ok status, parses the body, and returns
`key ? data[key] : data`; every failure is caught, logged via
`console.error`, and converted to a `null` return (the function itself
never raises — the internal `Except` never escapes). -/
def fetchPage (fetchFn : String → Option Response) (path format : String)
    (key : JsVal) : FetchOut :=
  let url := path ++ "?format=" ++ format
  let attempt : Except String JsVal :=
    match fetchFn url with
    | none => .error "network failure"
    | some r =>
        if !r.ok then .error ("Failed to fetch: " ++ toString r.status)
        else
          match r.body with
          | none => .error "JSON parse failure"
          | some data => .ok (if truthy key then getIndex data key else data)
  match attempt with
  | .ok v => { result := v, requested := [url], errors := 0 }
  | .error _ => { result := .jsNull, requested := [url], errors := 1 }

/-- `SNLib.fetchCurrentPage(format, key)`: when
`settings.currentPageEnabled` is false, warn and return `null` without any
request; otherwise delegate to `fetchPage` on `location.pathname`.  The
second component counts `console.warn` messages. -/
def fetchCurrentPage (currentPageEnabled : Bool)
    (fetchFn : String → Option Response) (pathname format : String)
    (key : JsVal) : FetchOut × Nat :=
  if !currentPageEnabled then
    ({ result := .jsNull, requested := [], errors := 0 }, 1)
  else
    (fetchPage fetchFn pathname format key, 0)

/-- The gate's duplicate-start invariant: at most one interval timer is
ever live (exactly one while waiting and not yet ready), the drain has run
exactly once iff the gate is ready, and the queue is empty once ready. -/
def gateInvariant (s : GateState) : Prop :=
  s.timers = (if s.waiting && !s.isReady then 1 else 0) ∧
  s.drains = (if s.isReady then 1 else 0) ∧
  (s.isReady = true → s.queue = [])

/-! ## Helper lemmas: the gate in the ready state -/

mutual

/-- While `isReady`, running a callback only appends its trace to the log:
queue, flags, and counters are untouched (every re-entrant registration
executes immediately). -/
theorem runCb_ready (s : GateState) (cb : Cb) (h : s.isReady = true) :
    runCb s cb = { s with log := s.log ++ traceCb cb } := by
  cases cb with
  | node i subs =>
      rw [runCb, traceCb, runList_ready { s with log := s.log ++ [i] } subs h]
      simp

theorem runList_ready (s : GateState) (l : List Cb) (h : s.isReady = true) :
    runList s l = { s with log := s.log ++ traceList l } := by
  cases l with
  | nil => rw [runList, traceList]; simp
  | cons cb rest =>
      rw [runList, traceList, if_pos (by simp [h]),
        runCb_ready s cb h,
        runList_ready { s with log := s.log ++ traceCb cb } rest h]
      simp

end

/-- While `isReady`, the drain loop empties the queue and appends the
queued callbacks' traces to the log, in FIFO order, provided the fuel
covers the queue length. -/
theorem drainLoop_ready (fuel : Nat) (s : GateState) (h : s.isReady = true)
    (hf : s.queue.length ≤ fuel) :
    drainLoop fuel s =
      { s with queue := [], log := s.log ++ traceList s.queue } := by
  induction fuel generalizing s with
  | zero =>
      obtain ⟨a, w, qq, lg, tm, dr⟩ := s
      have hq : qq = [] := List.length_eq_zero.mp (Nat.le_zero.mp hf)
      subst hq
      simp [drainLoop, traceList]
  | succ n ih =>
      obtain ⟨a, w, qq, lg, tm, dr⟩ := s
      cases qq with
      | nil => simp [drainLoop, traceList]
      | cons cb rest =>
          rw [show drainLoop (n + 1) ⟨a, w, cb :: rest, lg, tm, dr⟩ =
                drainLoop n (runCb ⟨a, w, rest, lg, tm, dr⟩ cb) from rfl,
            runCb_ready ⟨a, w, rest, lg, tm, dr⟩ cb h,
            ih ⟨a, w, rest, lg ++ traceCb cb, tm, dr⟩ h
              (Nat.le_of_succ_le_succ hf)]
          simp [traceList]

/-- `executeCallbacks` marks the gate ready, empties the queue, and runs
the queued callbacks in FIFO order, bumping the drain counter. -/
theorem executeCallbacks_spec (s : GateState) :
    executeCallbacks s =
      { isReady := true, waiting := s.waiting, queue := [],
        log := s.log ++ traceList s.queue, timers := s.timers,
        drains := s.drains + 1 } := by
  rw [executeCallbacks, drainLoop_ready _ _ rfl (Nat.le_refl _)]

/-- Registering callbacks on a gate that is not yet ready only appends
them to the queue, in order. -/
theorem foldl_runAfterReady_not_ready (pre : List Cb) (s : GateState)
    (h : s.isReady = false) :
    pre.foldl runAfterReady s = { s with queue := s.queue ++ pre } := by
  induction pre generalizing s with
  | nil => simp
  | cons cb rest ih =>
      rw [List.foldl_cons, runAfterReady, if_neg (by simp [h]),
        ih { s with queue := s.queue ++ [cb] } h]
      simp

/-- On a ready gate, registering callbacks runs each of them immediately
and synchronously, leaving queue, flags, and counters untouched. -/
theorem foldl_runAfterReady_ready (posts : List Cb) (s : GateState)
    (h : s.isReady = true) :
    posts.foldl runAfterReady s =
      { s with log := s.log ++ traceList posts } := by
  induction posts generalizing s with
  | nil => simp [traceList]
  | cons cb rest ih =>
      rw [List.foldl_cons, runAfterReady, if_pos h, runCb_ready s cb h,
        ih { s with log := s.log ++ traceCb cb } h]
      simp [traceList]

/-- C1: starting from the initial gate, registering any callbacks `pre`
before readiness queues them in FIFO order with nothing executed; the
readiness transition (`executeCallbacks`) drains the whole queue before
returning, executing the callbacks — including their re-entrant
registrations, which run immediately and synchronously — exactly in FIFO
registration order (the log equals the concatenated traces), and leaves
the queue empty; callbacks registered after the Ready state is reached
run synchronously and immediately, and the queue stays empty — so every
registered callback executes exactly once. -/
theorem runAfterReady_exactly_once_fifo (pre posts : List Cb) :
    (pre.foldl runAfterReady initGate).queue = pre ∧
    (pre.foldl runAfterReady initGate).log = [] ∧
    executeCallbacks (pre.foldl runAfterReady initGate) =
      { isReady := true, waiting := false, queue := [], log := traceList pre,
        timers := 0, drains := 1 } ∧
    posts.foldl runAfterReady
        (executeCallbacks (pre.foldl runAfterReady initGate)) =
      { isReady := true, waiting := false, queue := [],
        log := traceList pre ++ traceList posts, timers := 0,
        drains := 1 } := by
  have h1 : pre.foldl runAfterReady initGate =
      { isReady := false, waiting := false, queue := pre, log := [],
        timers := 0, drains := 0 } := by
    rw [foldl_runAfterReady_not_ready pre initGate rfl]
    simp [initGate]
  have h2 : executeCallbacks (pre.foldl runAfterReady initGate) =
      { isReady := true, waiting := false, queue := [], log := traceList pre,
        timers := 0, drains := 1 } := by
    rw [h1, executeCallbacks_spec]
    simp
  refine ⟨by rw [h1], by rw [h1], h2, ?_⟩
  rw [h2, foldl_runAfterReady_ready posts _ rfl]

/-! ## Helper lemmas: waitForSquarespace case analysis and the invariant -/

/-- Calling `waitForSquarespace` on a ready gate with an empty queue is a
no-op (the re-drain loop finds nothing to do). -/
theorem waitForSquarespace_ready (sig : Bool) (s : GateState)
    (hr : s.isReady = true) (hq : s.queue = []) :
    waitForSquarespace sig s = s := by
  obtain ⟨a, w, qq, lg, tm, dr⟩ := s
  replace hq : qq = [] := hq
  subst hq
  rw [waitForSquarespace, if_pos hr, drainLoop_ready _ _ hr (Nat.le_refl _)]
  simp [traceList]

/-- Calling `waitForSquarespace` while already waiting is a no-op
(duplicate-start guard). -/
theorem waitForSquarespace_waiting (sig : Bool) (s : GateState)
    (hr : s.isReady = false) (hw : s.waiting = true) :
    waitForSquarespace sig s = s := by
  rw [waitForSquarespace, if_neg (by simp [hr]), if_pos hw]

/-- The first call with the predicate already true takes the fast path:
`executeCallbacks` runs at once and no timer is scheduled. -/
theorem waitForSquarespace_fresh_true (s : GateState)
    (hr : s.isReady = false) (hw : s.waiting = false) :
    waitForSquarespace true s = executeCallbacks { s with waiting := true } := by
  rw [waitForSquarespace, if_neg (by simp [hr]), if_neg (by simp [hw]), if_pos rfl]

/-- The first call with the predicate still false schedules exactly one
interval timer. -/
theorem waitForSquarespace_fresh_false (s : GateState)
    (hr : s.isReady = false) (hw : s.waiting = false) :
    waitForSquarespace false s =
      { s with waiting := true, timers := s.timers + 1 } := by
  rw [waitForSquarespace, if_neg (by simp [hr]), if_neg (by simp [hw]),
    if_neg (by simp)]

/-- Every gate event preserves the duplicate-start invariant. -/
theorem gateStep_invariant (s : GateState) (e : GateEvent)
    (h : gateInvariant s) : gateInvariant (gateStep s e) := by
  obtain ⟨a, w, qq, lg, tm, dr⟩ := s
  obtain ⟨ht, hd, hq⟩ := h
  replace ht : tm = if w && !a then 1 else 0 := ht
  replace hd : dr = if a then 1 else 0 := hd
  replace hq : a = true → qq = [] := hq
  cases e with
  | call sig =>
      cases a with
      | true =>
          have hqe : qq = [] := hq rfl
          subst hqe
          rw [gateStep, waitForSquarespace_ready sig _ rfl rfl]
          exact ⟨ht, hd, fun _ => rfl⟩
      | false =>
          cases w with
          | true =>
              rw [gateStep, waitForSquarespace_waiting sig _ rfl rfl]
              exact ⟨ht, hd, hq⟩
          | false =>
              replace ht : tm = 0 := by simpa using ht
              replace hd : dr = 0 := by simpa using hd
              subst ht
              subst hd
              cases sig with
              | true =>
                  rw [gateStep, waitForSquarespace_fresh_true _ rfl rfl,
                    executeCallbacks_spec]
                  exact ⟨by simp, by simp, fun _ => rfl⟩
              | false =>
                  rw [gateStep, waitForSquarespace_fresh_false _ rfl rfl]
                  exact ⟨by simp, by simp, by simp⟩
  | tick sig =>
      cases a with
      | true =>
          replace ht : tm = 0 := by simpa using ht
          subst ht
          rw [gateStep, intervalTick, if_pos rfl]
          exact ⟨by simp, hd, hq⟩
      | false =>
          cases w with
          | false =>
              replace ht : tm = 0 := by simpa using ht
              subst ht
              rw [gateStep, intervalTick, if_pos rfl]
              exact ⟨by simp, hd, hq⟩
          | true =>
              replace ht : tm = 1 := by simpa using ht
              replace hd : dr = 0 := by simpa using hd
              subst ht
              subst hd
              cases sig with
              | true =>
                  rw [gateStep, intervalTick, if_neg (by simp),
                    if_pos rfl, executeCallbacks_spec]
                  exact ⟨by simp, by simp, fun _ => rfl⟩
              | false =>
                  rw [gateStep, intervalTick, if_neg (by simp),
                    if_neg (by simp)]
                  exact ⟨by simp, by simp, hq⟩
  | defer cb =>
      cases a with
      | true =>
          have hqe : qq = [] := hq rfl
          subst hqe
          rw [gateStep, runAfterReady, if_pos rfl, runCb_ready _ _ rfl]
          exact ⟨ht, hd, fun _ => rfl⟩
      | false =>
          rw [gateStep, runAfterReady, if_neg (by simp)]
          exact ⟨ht, hd, by simp⟩

/-- The invariant holds along every event trace from the initial state. -/
theorem foldl_gateStep_invariant (evs : List GateEvent) :
    gateInvariant (evs.foldl gateStep initGate) := by
  suffices h : ∀ s, gateInvariant s → gateInvariant (evs.foldl gateStep s) by
    exact h initGate ⟨rfl, rfl, by intro h; cases h⟩
  induction evs with
  | nil => exact fun s h => h
  | cons e rest ih => exact fun s h => ih (gateStep s e) (gateStep_invariant s e h)

/-- C2: along every interleaving of `waitForSquarespace` calls, interval
ticks, and registrations — with the readiness predicate observed
arbitrarily at each event — at most one polling timer is ever live and the
drain runs at most once (exactly once as soon as the gate is ready, by
which time the queue is empty); further calls in the Waiting or Ready
state are no-ops, and a first call that already sees the predicate true
becomes Ready immediately without scheduling any timer. -/
theorem waitForSquarespace_single_poll_single_drain (evs : List GateEvent) :
    (evs.foldl gateStep initGate).timers ≤ 1 ∧
    (evs.foldl gateStep initGate).drains ≤ 1 ∧
    ((evs.foldl gateStep initGate).isReady = true →
      (evs.foldl gateStep initGate).timers = 0 ∧
      (evs.foldl gateStep initGate).drains = 1 ∧
      (evs.foldl gateStep initGate).queue = []) ∧
    ((evs.foldl gateStep initGate).isReady = false →
      (evs.foldl gateStep initGate).drains = 0) ∧
    ((evs.foldl gateStep initGate).isReady = true → ∀ sig,
      waitForSquarespace sig (evs.foldl gateStep initGate) =
        evs.foldl gateStep initGate) ∧
    ((evs.foldl gateStep initGate).isReady = false →
      (evs.foldl gateStep initGate).waiting = true → ∀ sig,
      waitForSquarespace sig (evs.foldl gateStep initGate) =
        evs.foldl gateStep initGate) ∧
    waitForSquarespace true initGate =
      { isReady := true, waiting := true, queue := [], log := [],
        timers := 0, drains := 1 } := by
  obtain ⟨ht, hd, hq⟩ := foldl_gateStep_invariant evs
  refine ⟨?_, ?_, ?_, ?_, ?_, ?_, ?_⟩
  · rw [ht]; split <;> omega
  · rw [hd]; split <;> omega
  · intro hr
    exact ⟨by rw [ht, hr]; simp, by rw [hd, hr]; simp, hq hr⟩
  · intro hr
    rw [hd, hr]
    simp
  · intro hr sig
    exact waitForSquarespace_ready sig _ hr (hq hr)
  · intro hr hw sig
    exact waitForSquarespace_waiting sig _ hr hw
  · rw [waitForSquarespace_fresh_true initGate rfl rfl, executeCallbacks_spec]
    rfl

/-- Witness for C2 at a concrete trace: a failed first poll, a successful
tick, and a redundant third call still yield one timer total, one drain,
and an empty queue. -/
theorem waitForSquarespace_single_poll_single_drain_witness :
    ([GateEvent.call false, GateEvent.tick true,
        GateEvent.call true].foldl gateStep initGate).timers ≤ 1 ∧
    ([GateEvent.call false, GateEvent.tick true,
        GateEvent.call true].foldl gateStep initGate).timers = 0 ∧
    ([GateEvent.call false, GateEvent.tick true,
        GateEvent.call true].foldl gateStep initGate).drains = 1 ∧
    ([GateEvent.call false, GateEvent.tick true,
        GateEvent.call true].foldl gateStep initGate).queue = [] := by
  have h := waitForSquarespace_single_poll_single_drain
    [GateEvent.call false, GateEvent.tick true, GateEvent.call true]
  exact ⟨h.1, (h.2.2.1 rfl).1, (h.2.2.1 rfl).2.1, (h.2.2.1 rfl).2.2⟩

/-! ## Throttle (C3) -/

/-- C3: a call of a throttled wrapper executes the function exactly when
`now - lastCall ≥ limit`, with an inclusive boundary; an executing call
updates the stored timestamp to `now`, a dropped call leaves it unchanged
(nothing is queued or replayed).  In particular, for any clock value `B`
of the first call large enough that the first call executes immediately
(`lastCall` is initialized to 0), `throttle(fn, 100)` invoked at
`B, B+30, B+60, B+110` executes exactly at `B` and `B+110`. -/
theorem throttle_window_drop (limit lastCall now B : Int)
    (hB : 100 ≤ B) :
    ((throttleStep limit lastCall now).1 = true ↔ limit ≤ now - lastCall) ∧
    (limit ≤ now - lastCall → throttleStep limit lastCall now = (true, now)) ∧
    (now - lastCall < limit →
      throttleStep limit lastCall now = (false, lastCall)) ∧
    throttleRun 100 0 [B, B + 30, B + 60, B + 110] = [B, B + 110] := by
  refine ⟨?_, ?_, ?_, ?_⟩
  · rw [throttleStep]
    split <;> simp_all
  · intro h
    rw [throttleStep, if_pos h]
  · intro h
    rw [throttleStep, if_neg (by omega)]
  · simp only [throttleRun, throttleStep]
    rw [if_pos (by omega : (100:Int) ≤ B - 0)]
    simp only
    rw [if_neg (by omega : ¬ (100:Int) ≤ B + 30 - B)]
    rw [if_neg (by omega : ¬ (100:Int) ≤ B + 60 - B)]
    rw [if_pos (by omega : (100:Int) ≤ B + 110 - B)]
    simp

/-- Witness for C3: with `limit = 100` the boundary call at
`now - lastCall = 100` executes, and the concrete schedule starting at
clock 1000 fires at 1000 and 1110 only. -/
theorem throttle_window_drop_witness :
    ((throttleStep 100 0 100).1 = true ↔ (100:Int) ≤ 100 - 0) ∧
    throttleRun 100 0 [1000, 1000 + 30, 1000 + 60, 1000 + 110] =
      [1000, 1000 + 110] := by
  have h := throttle_window_drop 100 0 100 1000 (by norm_num)
  exact ⟨h.1, h.2.2.2⟩

/-! ## Debounce (C4) -/

/-- While every successive call arrives strictly within `delay` of the
previous one, each call cancels the pending timer before it can fire, so
the pending slot always tracks the latest call and nothing is logged. -/
theorem debFoldl_close {α : Type} (delay : Int) :
    ∀ (rest : List (Int × α)) (t : Int) (a : α) (acc : List (Int × α)),
      closeCalls delay ((t, a) :: rest) = true →
      rest.foldl (fun s p => debCall delay s p.1 p.2)
          { pending := some (t + delay, a), fired := acc } =
        { pending :=
            some ((((t, a) :: rest).getLast (by simp)).1 + delay,
              (((t, a) :: rest).getLast (by simp)).2),
          fired := acc } := by
  intro rest
  induction rest with
  | nil =>
      intro t a acc _
      simp [List.getLast]
  | cons p rest ih =>
      intro t a acc hc
      obtain ⟨t2, a2⟩ := p
      rw [closeCalls, Bool.and_eq_true] at hc
      have hlt : t2 < t + delay := by simpa using hc.1
      have hc2 : closeCalls delay ((t2, a2) :: rest) = true := hc.2
      rw [List.foldl_cons]
      have hstep : debCall delay
          { pending := some (t + delay, a), fired := acc } t2 a2 =
          { pending := some (t2 + delay, a2), fired := acc } := by
        rw [debCall, debFlush]
        simp only
        rw [if_neg (by omega)]
      rw [hstep, ih t2 a2 acc hc2]
      rfl

/-- C4: if every call of a debounced wrapper arrives strictly less than
`delay` after the previous one, the wrapped function executes exactly
once, `delay` after the final call, with the arguments (and captured
context) of that final call; all earlier scheduled executions are
cancelled and never replayed. -/
theorem debounce_last_call_only {α : Type} (delay : Int) (first : Int × α)
    (rest : List (Int × α))
    (hc : closeCalls delay (first :: rest) = true) :
    debRun delay (first :: rest) =
      { pending := none,
        fired := [(((first :: rest).getLast (by simp)).1 + delay,
          ((first :: rest).getLast (by simp)).2)] } := by
  obtain ⟨t, a⟩ := first
  rw [debRun, List.foldl_cons]
  have hfirst : debCall delay { pending := none, fired := [] } t a =
      { pending := some (t + delay, a), fired := [] } := by
    rw [debCall, debFlush]
  rw [hfirst, debFoldl_close delay rest t a [] hc]
  rfl

/-- Witness for C4: five calls at 50 ms intervals with `delay = 100`
produce exactly one execution, 100 ms after the fifth call, with the
fifth call's argument. -/
theorem debounce_last_call_only_witness :
    closeCalls 100 [((0:Int), (1:Int)), (50, 2), (100, 3), (150, 4),
      (200, 5)] = true ∧
    debRun 100 [((0:Int), (1:Int)), (50, 2), (100, 3), (150, 4), (200, 5)] =
      { pending := none, fired := [(300, 5)] } := by
  refine ⟨by decide, ?_⟩
  have h := debounce_last_call_only 100 ((0:Int), (1:Int))
    [(50, 2), (100, 3), (150, 4), (200, 5)] (by decide)
  rw [h]
  decide

/-! ## One-shot event emission (C5) -/

/-- C5: with the once-guard flag set, the first `emitCustomEvent` for a
name dispatches the event, marks the name emitted, and then runs the
continuation synchronously; a second call for the same name adds only a
warning — no dispatch, no continuation.  Moreover every dispatching call
marks the name emitted, even with the guard flag off. -/
theorem emitCustomEvent_once_guard {α : Type} (eventName : String)
    (p1 p2 : α) (s : EmitState α) (p : α) (hasNext : Bool) :
    emitCustomEvent (initEmit α) eventName p1 true true =
      { emitted := [eventName],
        actions := [.dispatch eventName p1, .mark eventName,
          .next eventName] } ∧
    emitCustomEvent (emitCustomEvent (initEmit α) eventName p1 true true)
        eventName p2 true true =
      { emitted := [eventName],
        actions := [.dispatch eventName p1, .mark eventName,
          .next eventName, .warn eventName] } ∧
    (emitCustomEvent s eventName p false hasNext).emitted.contains
      eventName = true := by
  have h1 : emitCustomEvent (initEmit α) eventName p1 true true =
      { emitted := [eventName],
        actions := [.dispatch eventName p1, .mark eventName,
          .next eventName] } := by
    rw [emitCustomEvent, initEmit]
    simp
  refine ⟨h1, ?_, ?_⟩
  · rw [h1, emitCustomEvent]
    simp
  · rw [emitCustomEvent]
    simp only [Bool.false_and, Bool.false_eq_true, if_false]
    by_cases hmem : eventName ∈ s.emitted
    · simp [hmem]
    · simp [hmem]

/-! ## Element wait (C6) -/

/-- A disconnected observer never delivers another callback. -/
theorem foldl_mutationBatch_done {δ ε : Type} (q : δ → Option ε)
    (ds : List δ) :
    ∀ s : WaitState ε, s.observing = false →
      ds.foldl (mutationBatch q) s = s := by
  induction ds with
  | nil => intro s _; rfl
  | cons d rest ih =>
      intro s hs
      rw [List.foldl_cons, mutationBatch, if_neg (by simp [hs])]
      exact ih s hs

/-- A connected observer with no calls yet fires exactly on the first
matching batch and then disconnects. -/
theorem foldl_mutationBatch_searching {δ ε : Type} (q : δ → Option ε)
    (ds : List δ) :
    ds.foldl (mutationBatch q) { observing := true, calls := [] } =
      { observing := (ds.findSome? q).isNone,
        calls := (ds.findSome? q).toList } := by
  induction ds with
  | nil => rfl
  | cons d rest ih =>
      rw [List.foldl_cons, mutationBatch, if_pos rfl]
      cases hd : q d with
      | some e =>
          simp only
          rw [foldl_mutationBatch_done q rest _ rfl]
          simp [List.findSome?_cons, hd]
      | none =>
          simp only
          rw [ih]
          simp [List.findSome?_cons, hd]

/-- C6: for any initial document snapshot and any sequence of mutation
batches, the `waitForElement` callback log is exactly the first successful
query result: when the element exists at call time the callback runs
synchronously with it and no observer is connected; otherwise the
callback fires exactly once, on the first batch whose re-query matches,
after which the observer is disconnected and later batches (second
insertion/removal cycles) deliver nothing. -/
theorem waitForElement_one_shot {δ ε : Type} (q : δ → Option ε) (d0 : δ)
    (ds : List δ) :
    (ds.foldl (mutationBatch q) (waitForElement q d0)).calls =
      ((d0 :: ds).findSome? q).toList ∧
    (ds.foldl (mutationBatch q) (waitForElement q d0)).observing =
      (((d0 :: ds).findSome? q).isNone) ∧
    (ds.foldl (mutationBatch q) (waitForElement q d0)).calls.length ≤ 1 := by
  have key : ds.foldl (mutationBatch q) (waitForElement q d0) =
      { observing := ((d0 :: ds).findSome? q).isNone,
        calls := ((d0 :: ds).findSome? q).toList } := by
    rw [waitForElement]
    cases hd : q d0 with
    | some e =>
        simp only
        rw [foldl_mutationBatch_done q ds _ rfl]
        simp [List.findSome?_cons, hd]
    | none =>
        simp only
        rw [foldl_mutationBatch_searching]
        simp [List.findSome?_cons, hd]
  rw [key]
  refine ⟨rfl, rfl, ?_⟩
  cases (d0 :: ds).findSome? q <;> simp

/-! ## Mode-watcher flag derivation (C7) -/

/-- C7 (spec-modelled: the mode-watcher is absent from src/): the first
flag is true iff the class list carries the mode-A marker
`sqs-edit-mode`; the second is true iff it carries both the mode-A marker
and the sub-state marker `sqs-edit-mode-active`; without the mode-A
marker both flags are false regardless of the sub-state marker, and the
derivation is invariant under permuting the class list (extra unrelated
classes change nothing). -/
theorem deriveFlags_markers (classes : List String) :
    ((deriveFlags classes).1 = true ↔ "sqs-edit-mode" ∈ classes) ∧
    ((deriveFlags classes).2 = true ↔
      ("sqs-edit-mode" ∈ classes ∧ "sqs-edit-mode-active" ∈ classes)) ∧
    ("sqs-edit-mode" ∉ classes → deriveFlags classes = (false, false)) ∧
    (∀ perm : List String, classes.Perm perm →
      deriveFlags classes = deriveFlags perm) := by
  refine ⟨by simp [deriveFlags], by simp [deriveFlags], ?_, ?_⟩
  · intro h
    simp [deriveFlags, h]
  · intro perm hp
    simp [deriveFlags, hp.mem_iff]

/-- Witness for C7: a class list without the mode-A marker yields
`(false, false)`, and swapping classes does not change the derivation. -/
theorem deriveFlags_markers_witness :
    deriveFlags ["unrelated"] = (false, false) ∧
    deriveFlags ["unrelated", "sqs-edit-mode"] =
      deriveFlags ["sqs-edit-mode", "unrelated"] :=
  ⟨(deriveFlags_markers ["unrelated"]).2.2.1 (by decide),
    (deriveFlags_markers ["unrelated", "sqs-edit-mode"]).2.2.2
      ["sqs-edit-mode", "unrelated"]
      (List.Perm.swap "sqs-edit-mode" "unrelated" [])⟩

/-! ## Page fetch (C8, C9, C10) -/

/-- C8: `fetchPage` always requests exactly `path?format=format`; whenever
the fetch rejects, the response has a non-ok status, or the body fails to
parse as JSON, it returns `null` with the error reported through the log
side channel (one `console.error`) instead of raising; on success it
returns the parsed value, or the value at the given key when the key is
truthy, with no error report. -/
theorem fetchPage_error_to_null (fetchFn : String → Option Response)
    (path format : String) (key : JsVal) :
    (fetchPage fetchFn path format key).requested =
      [path ++ "?format=" ++ format] ∧
    (fetchFn (path ++ "?format=" ++ format) = none →
      fetchPage fetchFn path format key =
        { result := .jsNull, requested := [path ++ "?format=" ++ format],
          errors := 1 }) ∧
    (∀ r : Response, fetchFn (path ++ "?format=" ++ format) = some r →
      r.ok = false →
      fetchPage fetchFn path format key =
        { result := .jsNull, requested := [path ++ "?format=" ++ format],
          errors := 1 }) ∧
    (∀ r : Response, fetchFn (path ++ "?format=" ++ format) = some r →
      r.ok = true → r.body = none →
      fetchPage fetchFn path format key =
        { result := .jsNull, requested := [path ++ "?format=" ++ format],
          errors := 1 }) ∧
    (∀ (r : Response) (data : JsVal),
      fetchFn (path ++ "?format=" ++ format) = some r →
      r.ok = true → r.body = some data →
      fetchPage fetchFn path format key =
        { result := if truthy key then getIndex data key else data,
          requested := [path ++ "?format=" ++ format], errors := 0 }) := by
  refine ⟨?_, ?_, ?_, ?_, ?_⟩
  · rw [fetchPage]
    cases hf : fetchFn (path ++ "?format=" ++ format) with
    | none => rfl
    | some r =>
        cases hok : r.ok with
        | false => simp [hf, hok]
        | true =>
            cases hb : r.body with
            | none => simp [hf, hok, hb]
            | some data => simp [hf, hok, hb]
  · intro hf
    rw [fetchPage]
    simp [hf]
  · intro r hf hok
    rw [fetchPage]
    simp [hf, hok]
  · intro r hf hok hb
    rw [fetchPage]
    simp [hf, hok, hb]
  · intro r data hf hok hb
    rw [fetchPage]
    simp [hf, hok, hb]

/-- Witness for C8: a rejected fetch yields `null` with one logged error,
and a successful fetch returns the parsed body. -/
theorem fetchPage_error_to_null_witness :
    fetchPage (fun _ => none) "/blog" "json" .jsNull =
      { result := .jsNull, requested := ["/blog?format=json"],
        errors := 1 } ∧
    fetchPage (fun _ => some { ok := true, status := 200, body := some (.str "payload") })
        "/blog" "json" .jsNull =
      { result := .str "payload", requested := ["/blog?format=json"],
        errors := 0 } := by
  constructor
  · exact (fetchPage_error_to_null (fun _ => none) "/blog" "json" .jsNull).2.1 rfl
  · have h := (fetchPage_error_to_null
      (fun _ => some { ok := true, status := 200, body := some (.str "payload") })
      "/blog" "json" .jsNull).2.2.2.2
      { ok := true, status := 200, body := some (.str "payload") }
      (.str "payload") rfl rfl rfl
    rw [h]
    rfl

/-- C9: on a successful fetch, `key ? data[key] : data` means every falsy
key (undefined, null, the empty string, 0, false) returns the whole parsed
value — in particular the empty-string key does not select the `""`
property — and only a truthy key selects `data[key]`. -/
theorem fetchPage_falsy_key_returns_all (fetchFn : String → Option Response)
    (path format : String) (r : Response) (data : JsVal)
    (hf : fetchFn (path ++ "?format=" ++ format) = some r)
    (hok : r.ok = true) (hb : r.body = some data) :
    (∀ key : JsVal, truthy key = false →
      (fetchPage fetchFn path format key).result = data) ∧
    (fetchPage fetchFn path format (.str "")).result = data ∧
    (fetchPage fetchFn path format .undefined).result = data ∧
    (fetchPage fetchFn path format .jsNull).result = data ∧
    (fetchPage fetchFn path format (.num 0)).result = data ∧
    (fetchPage fetchFn path format (.bool false)).result = data ∧
    (∀ key : JsVal, truthy key = true →
      (fetchPage fetchFn path format key).result = getIndex data key) := by
  have hgen : ∀ key : JsVal, (fetchPage fetchFn path format key).result =
      (if truthy key then getIndex data key else data) := by
    intro key
    rw [fetchPage]
    simp [hf, hok, hb]
  refine ⟨?_, ?_, ?_, ?_, ?_, ?_, ?_⟩
  · intro key hk
    rw [hgen key, hk]
    simp
  · rw [hgen (.str "")]
    rfl
  · rw [hgen .undefined]
    rfl
  · rw [hgen .jsNull]
    rfl
  · rw [hgen (.num 0)]
    rfl
  · rw [hgen (.bool false)]
    rfl
  · intro key hk
    rw [hgen key, hk]
    simp

/-- Witness for C9: with a body holding an `""` property, the
empty-string key still returns the whole object, while the truthy key
`"a"` selects the property. -/
theorem fetchPage_falsy_key_returns_all_witness :
    (fetchPage (fun _ => some { ok := true, status := 200, body := some (.obj [("", .num 7), ("a", .num 8)]) })
      "/p" "json" (.str "")).result = .obj [("", .num 7), ("a", .num 8)] ∧
    (fetchPage (fun _ => some { ok := true, status := 200, body := some (.obj [("", .num 7), ("a", .num 8)]) })
      "/p" "json" (.str "a")).result =
        getIndex (.obj [("", .num 7), ("a", .num 8)]) (.str "a") := by
  have h := fetchPage_falsy_key_returns_all
    (fun _ => some { ok := true, status := 200, body := some (.obj [("", .num 7), ("a", .num 8)]) })
    "/p" "json"
    { ok := true, status := 200, body := some (.obj [("", .num 7), ("a", .num 8)]) }
    (.obj [("", .num 7), ("a", .num 8)]) rfl rfl rfl
  exact ⟨h.2.1, h.2.2.2.2.2.2 (.str "a") rfl⟩

/-- C10: with `settings.currentPageEnabled = false`, `fetchCurrentPage`
returns `null` without issuing any request, logging one warning; with the
setting enabled it performs exactly the `fetchPage` of the current
pathname. -/
theorem fetchCurrentPage_disabled_no_request
    (fetchFn : String → Option Response) (pathname format : String)
    (key : JsVal) :
    fetchCurrentPage false fetchFn pathname format key =
      ({ result := .jsNull, requested := [], errors := 0 }, 1) ∧
    fetchCurrentPage true fetchFn pathname format key =
      (fetchPage fetchFn pathname format key, 0) := by
  constructor
  · rw [fetchCurrentPage]
    simp
  · rw [fetchCurrentPage]
    simp

end SNLib
